import Mathlib

/-!
Shallow embedding of the `gamenetworking` demo (Rust sources: `sim.rs`,
`net.rs`, `ticktimer.rs`, `client.rs`, `server.rs`) and proofs about its
client prediction / server reconciliation / interpolation pipeline.

Modelling conventions:
* `f32` coordinates are modelled as `ℚ` (the arithmetic the code performs is
  addition, subtraction, multiplication and division of small values).
* `i32` tick counters are modelled as `Int`; where the source explicitly uses
  `wrapping_add` the wrap is modelled by `toI32` (reduction into
  `[-2^31, 2^31)`).
* `Duration` / `Instant` values are modelled as `Nat` milliseconds; the
  elapsed time of a clock at a call site is passed as an explicit argument.
* `rand::gen_range` draws are passed as explicit arguments (`draw` for the
  drop roll in `[0,1)`, `latency` for the latency roll).
* `HashMap` is modelled as an insertion-ordered association list with
  insert-or-replace (`alInsert`) and in-place update (`alModify`).
* `VecDeque` is modelled as a `List` (push_back = append, pop_front = head).
-/

namespace GameNet

/-- sim.rs `Input`: directional intent for one tick. -/
structure Input where
  left : Bool
  right : Bool
  up : Bool
  down : Bool
deriving DecidableEq, Repr

/-- sim.rs `Colour`. -/
inductive Colour where
  | Red
  | Green
  | Blue
deriving DecidableEq, Repr

/-- sim.rs `Entity`. -/
structure Entity where
  position : ℚ × ℚ
  speed : ℚ
  colour : Colour
deriving DecidableEq, Repr

/-- sim.rs `Entity::integrate_input`: four independent axis displacements,
applied sequentially exactly as in the source. -/
def Entity.integrate_input (e : Entity) (input : Input) : Entity :=
  let e1 := if input.left then { e with position := (e.position.1 - e.speed, e.position.2) } else e
  let e2 := if input.right then { e1 with position := (e1.position.1 + e1.speed, e1.position.2) } else e1
  let e3 := if input.up then { e2 with position := (e2.position.1, e2.position.2 - e2.speed) } else e2
  if input.down then { e3 with position := (e3.position.1, e3.position.2 + e3.speed) } else e3

/-- net.rs `State`: per-entity wire snapshot. -/
structure State where
  tick : Int
  entity_id : Int
  position : ℚ × ℚ
  colour : Colour
deriving DecidableEq, Repr

/-- net.rs `Message`. -/
structure Message where
  sequence : Int
  state : Option (List State)
  input : Option (Bool × Bool × Bool × Bool)
deriving DecidableEq, Repr

/-- `HashMap::insert`: replace the binding if the key is present, otherwise
append it (insertion order preserved, as observed through lookups). -/
def alInsert {α : Type} : List (Int × α) → Int → α → List (Int × α)
  | [], k, v => [(k, v)]
  | (k', v') :: rest, k, v =>
    if k' = k then (k, v) :: rest else (k', v') :: alInsert rest k v

/-- `HashMap::get_mut` followed by a mutation: update the value stored at a
key in place (no-op when the key is absent). -/
def alModify {α : Type} : List (Int × α) → Int → (α → α) → List (Int × α)
  | [], _, _ => []
  | (k', v) :: rest, k, f =>
    if k' = k then (k', f v) :: rest else (k', v) :: alModify rest k f

/-- net.rs `UnreliableNetwork`.  The internal `Instant` clock is modelled by
passing its current elapsed time (ms) to `send`/`receive` explicitly. -/
structure UnreliableNetwork where
  messages : List (Nat × Int × Message)
  min_latency_ms : Nat
  max_latency_ms : Nat
  drop_rate : ℚ
deriving DecidableEq, Repr

/-- net.rs `UnreliableNetwork::send`: `draw` is the `rand::gen_range(0.0, 1.0)`
roll, `latency` the `rand::gen_range(min, max)` roll, and `elapsed` the
channel clock's elapsed time at the call. -/
def UnreliableNetwork.send (n : UnreliableNetwork) (draw : ℚ) (latency : Nat)
    (elapsed : Nat) (sender_id : Int) (message : Message) : UnreliableNetwork :=
  if draw < n.drop_rate then n
  else { n with messages := n.messages ++ [(elapsed + latency, sender_id, message)] }

/-- net.rs `UnreliableNetwork::receive`: pop the head, return it if its
deliver-at time has passed, otherwise push it back and return nothing. -/
def UnreliableNetwork.receive (n : UnreliableNetwork) (elapsed : Nat) :
    Option (Int × Message) × UnreliableNetwork :=
  match n.messages with
  | [] => (none, n)
  | (delay, sender_id, message) :: rest =>
    if delay ≤ elapsed then (some (sender_id, message), { n with messages := rest })
    else (none, { n with messages := (delay, sender_id, message) :: rest })

/-- One operation on a channel, for reasoning about traces of sends and
receives (each carrying the clock value and random rolls at its call). -/
inductive NetOp where
  | sendOp (draw : ℚ) (latency : Nat) (elapsed : Nat) (sender : Int) (msg : Message)
  | recvOp (elapsed : Nat)

/-- Run a trace of operations on a channel, collecting the messages returned
by the `receive` calls in call order. -/
def runNet (n : UnreliableNetwork) : List NetOp → UnreliableNetwork × List (Int × Message)
  | [] => (n, [])
  | NetOp.sendOp r lat el sid m :: ops => runNet (n.send r lat el sid m) ops
  | NetOp.recvOp el :: ops =>
    match n.receive el with
    | (some x, n') =>
      let (nf, recvd) := runNet n' ops
      (nf, x :: recvd)
    | (none, n') => runNet n' ops

/-- The messages of a trace that `send` actually enqueues (drop roll not below
the drop rate), in send order. -/
def sentList (dr : ℚ) : List NetOp → List (Int × Message)
  | [] => []
  | NetOp.sendOp r _ _ sid m :: ops =>
    (if r < dr then [] else [(sid, m)]) ++ sentList dr ops
  | NetOp.recvOp _ :: ops => sentList dr ops

/-- Forget the deliver-at times of a queue, keeping (sender, message) pairs. -/
def payloads (l : List (Nat × Int × Message)) : List (Int × Message) :=
  l.map (fun e => (e.2.1, e.2.2))

/-- `i32` two's-complement wrap, for `wrapping_add`. -/
def toI32 (n : Int) : Int := (n + 2147483648) % 4294967296 - 2147483648

/-- ticktimer.rs `TickTimer` (interval and accumulator in ms; the `Instant`
field is modelled by passing each frame's elapsed time to `tick`). -/
structure TickTimer where
  tick_interval : Nat
  current_tick : Int
  time_available : Nat
deriving DecidableEq, Repr

/-- The `while time_available >= tick_interval` loop of `TickTimer::tick`.
When the interval is positive the loop runs at most `acc` times, so the
caller passes `acc` as fuel. -/
def tickLoop (interval : Nat) : Nat → Nat → Int → List Int × Nat × Int
  | 0, acc, t => ([], acc, t)
  | fuel + 1, acc, t =>
    if interval ≤ acc then
      let r := tickLoop interval fuel (acc - interval) (toI32 (t + 1))
      (t :: r.1, r.2)
    else ([], acc, t)

/-- ticktimer.rs `TickTimer::tick`: `frame_time` is the elapsed real time
since the previous call. -/
def TickTimer.tick (tt : TickTimer) (frame_time : Nat) : List Int × TickTimer :=
  let acc := tt.time_available + frame_time
  let r := tickLoop tt.tick_interval acc acc tt.current_tick
  (r.1, { tt with time_available := r.2.1, current_tick := r.2.2 })

/-- Feed a sequence of frame times to successive `tick` calls, concatenating
the emitted ticks. -/
def runTimer (tt : TickTimer) : List Nat → List Int × TickTimer
  | [] => ([], tt)
  | d :: ds =>
    let r := tt.tick d
    let rest := runTimer r.2 ds
    (r.1 ++ rest.1, rest.2)

/-- sim.rs `World`. -/
structure World where
  entities : List (Int × Entity)
  latest_entity_id : Int
deriving DecidableEq, Repr

/-- sim.rs `World::add_entity`. -/
def World.add_entity (w : World) (entity : Entity) : Int × World :=
  let id := w.latest_entity_id + 1
  (id, { entities := alInsert w.entities id entity, latest_entity_id := id })

/-- client.rs `Client` (the two shared-`Rc` network handles are modelled by an
owned incoming network plus returning outgoing messages from `process_input`;
`server_network` presence is the `server_network_set` flag). -/
structure Client where
  id : Int
  tick_timer : TickTimer
  network : UnreliableNetwork
  server_network_set : Bool
  entities : List (Int × Entity)
  controlled_entity : Option Int
  input_state : Option Input
  input_history : List (Int × Input)
  last_message_sequence : Int
  client_prediction_enabled : Bool
  server_reconciliation_enabled : Bool
  extrapolation_enabled : Bool
  state_snapshots : List (Int × State)
  use_alternate_input : Bool
  colour : Colour
  connected : Bool
deriving DecidableEq, Repr

/-- client.rs `Client::get_input`: a sample with no direction held does not
overwrite a pending input; a non-empty sample replaces it.  The keyboard is
modelled by passing the four booleans. -/
def Client.get_input (c : Client) (l r u d : Bool) : Client :=
  if l || r || u || d then { c with input_state := some ⟨l, r, u, d⟩ } else c

/-- The body of the `for state in world_state` loop of
`Client::process_server_messages` (client.rs lines 163-215). -/
def Client.applyState (tick : Int) (c : Client) (state : State) : Client :=
  let c :=
    if (c.entities.lookup state.entity_id).isNone then
      { c with entities :=
          alInsert c.entities state.entity_id ⟨state.position, 5, state.colour⟩ }
    else c
  if c.controlled_entity = some state.entity_id then
    let snap := alModify c.entities state.entity_id
      (fun e => { e with position := state.position })
    let c := { c with entities := snap }
    if c.server_reconciliation_enabled then
      let last_sync_tick := state.tick + 1
      let c := { c with input_history :=
          c.input_history.filter (fun p => last_sync_tick ≤ p.1) }
      c.input_history.foldl (fun c p =>
        { c with entities :=
            alModify c.entities state.entity_id (fun e => e.integrate_input p.2) }) c
    else { c with input_history := [] }
  else
    if c.extrapolation_enabled then
      { c with state_snapshots := c.state_snapshots ++ [(tick, state)] }
    else
      { c with entities :=
          alModify c.entities state.entity_id (fun e => { e with position := state.position }) }

/-- The body of the `while let Some(...) = network.receive()` loop of
`Client::process_server_messages`: staleness filter, high-water-mark update,
then apply each `State` entry. -/
def Client.applyMessage (tick : Int) (c : Client) (message : Message) : Client :=
  if message.sequence < c.last_message_sequence then c
  else
    let c := { c with last_message_sequence := message.sequence }
    match message.state with
    | none => c
    | some world_state => world_state.foldl (Client.applyState tick) c

/-- The receive loop of `Client::process_server_messages`: each iteration
pops at most one queue entry, so the queue length bounds the iterations and
is passed as fuel. -/
def Client.psmLoop (elapsed : Nat) (tick : Int) : Nat → Client → Client
  | 0, c => c
  | fuel + 1, c =>
    match c.network.receive elapsed with
    | (some sm, n') => Client.psmLoop elapsed tick fuel
        (Client.applyMessage tick { c with network := n' } sm.2)
    | (none, n') => { c with network := n' }

/-- client.rs `Client::process_server_messages`. -/
def Client.process_server_messages (c : Client) (elapsed : Nat) (tick : Int) : Client :=
  Client.psmLoop elapsed tick c.network.messages.length c

/-- Pruning loop of `Client::interpolate_entities`: drop the front snapshot
while a second-oldest exists and its tick is at most the render tick. -/
def pruneSnapshots (render_tick : Int) : List (Int × State) → List (Int × State)
  | s0 :: s1 :: rest =>
    if s1.1 ≤ render_tick then pruneSnapshots render_tick (s1 :: rest)
    else s0 :: s1 :: rest
  | l => l

/-- Per-entity body of the `for (entity_id, entity)` loop of
`Client::interpolate_entities`, threading the shared snapshot buffer. -/
def interpStep (controlled : Option Int) (render_tick : Int)
    (buf : List (Int × State)) (ent : Int × Entity) : (Int × Entity) × List (Int × State) :=
  if controlled = some ent.1 then (ent, buf)
  else if 2 ≤ buf.length then
    let buf' := pruneSnapshots render_tick buf
    match buf' with
    | (t0, s0) :: (t1, s1) :: _ =>
      if t0 ≤ render_tick ∧ render_tick ≤ t1 then
        let lerp_fac : ℚ := ((render_tick - t0 : Int) : ℚ) / ((t1 - t0 : Int) : ℚ)
        ((ent.1, { ent.2 with position :=
            (s0.position.1 + (s1.position.1 - s0.position.1) * lerp_fac,
             s0.position.2 + (s1.position.2 - s0.position.2) * lerp_fac) }), buf')
      else (ent, buf')
    | _ => (ent, buf')
  else (ent, buf)

/-- The entity loop of `Client::interpolate_entities` (snapshot buffer is
shared across iterations). -/
def interpGo (controlled : Option Int) (render_tick : Int) :
    List (Int × Entity) → List (Int × State) → List (Int × Entity) × List (Int × State)
  | [], buf => ([], buf)
  | e :: es, buf =>
    let r := interpStep controlled render_tick buf e
    let rest := interpGo controlled render_tick es r.2
    (r.1 :: rest.1, rest.2)

/-- client.rs `Client::interpolate_entities` (smoothing_rate = 10). -/
def Client.interpolate_entities (c : Client) (tick : Int) : Client :=
  let render_tick := tick - 10
  let r := interpGo c.controlled_entity render_tick c.entities c.state_snapshots
  { c with entities := r.1, state_snapshots := r.2 }

/-- client.rs `Client::process_input`: returns the updated client together
with the messages pushed onto the server's network (the send's random rolls
are irrelevant to the claims proved here, so sends are reported, not
enqueued).  `update` only reaches this with a controlled entity set. -/
def Client.process_input (c : Client) : Client × List (Int × Message) :=
  if c.server_network_set then
    match c.input_state with
    | none => (c, [])
    | some input_state =>
      let msg : Message :=
        { sequence := c.tick_timer.current_tick, state := none,
          input := some (input_state.left, input_state.right, input_state.up, input_state.down) }
      let c := { c with input_state := none }
      let c :=
        if c.client_prediction_enabled then
          match c.controlled_entity with
          | some ce =>
            { c with entities := alModify c.entities ce (fun e => e.integrate_input input_state) }
          | none => c
        else c
      ({ c with input_history :=
          c.input_history ++ [(c.tick_timer.current_tick, input_state)] }, [(c.id, msg)])
  else (c, [])

/-- client.rs `Client::update`: early-return when not connected, otherwise
sample input and run the per-tick pipeline for each emitted tick.  Sent
messages are collected in order. -/
def Client.update (c : Client) (frame_time : Nat) (net_elapsed : Nat)
    (l r u d : Bool) : Client × List (Int × Message) :=
  if !c.connected then (c, [])
  else
    let c := c.get_input l r u d
    let tr := c.tick_timer.tick frame_time
    let c := { c with tick_timer := tr.2 }
    tr.1.foldl (fun acc tick =>
      let c := (acc.1).process_server_messages net_elapsed tick
      if c.controlled_entity.isNone then (c, acc.2)
      else
        let c := if c.extrapolation_enabled then c.interpolate_entities tick else c
        let rr := c.process_input
        (rr.1, acc.2 ++ rr.2)) (c, [])

/-- server.rs `Server` (the per-client network handles of
`connected_clients` are modelled by the list of connected client ids, with
broadcasts reported as (client id, message) pairs). -/
structure Server where
  id : Int
  tick_timer : TickTimer
  tick_rate_ms : Nat
  network : UnreliableNetwork
  connected_clients : List Int
  world : World
  npc_entities : List Int
  networked_players : List (Int × Int)
  last_processed_input : List (Int × Int)
deriving DecidableEq, Repr

/-- server.rs `Server::connect`: register the client, allocate a fresh
authoritative entity at the origin with the client's colour, and record the
client-id → entity-id mapping. -/
def Server.connect (s : Server) (client_id : Int) (client_colour : Colour) : Int × Server :=
  let clients :=
    if s.connected_clients.contains client_id then s.connected_clients
    else s.connected_clients ++ [client_id]
  let r := s.world.add_entity { position := (0, 0), speed := 5, colour := client_colour }
  let players := alInsert s.networked_players client_id r.1
  (r.1, { s with connected_clients := clients, world := r.2, networked_players := players })

/-- server.rs `Server::update_npc_entities`: the per-tick circular offset
`(angle.cos()*5, angle.sin()*5)` is real-valued trigonometry and is
abstracted as the explicit argument `disp`. -/
def Server.update_npc_entities (s : Server) (disp : ℚ × ℚ) : Server :=
  s.npc_entities.foldl (fun s npc_id =>
    let ents := alModify s.world.entities npc_id (fun e =>
      { e with position := (e.position.1 + disp.1, e.position.2 + disp.2) })
    { s with world := { s.world with entities := ents } }) s

/-- Body of the receive loop of `Server::process_client_messages`: integrate
the input (if any) into the sender's authoritative entity and record the
message's sequence as that client's last processed input. -/
def Server.applyClientMessage (s : Server) (client_id : Int) (message : Message) : Server :=
  let s :=
    match s.networked_players.lookup client_id with
    | some local_entity_id =>
      match message.input with
      | some i =>
        let ents := alModify s.world.entities local_entity_id (fun e =>
          e.integrate_input ⟨i.1, i.2.1, i.2.2.1, i.2.2.2⟩)
        { s with world := { s.world with entities := ents } }
      | none => s
    | none => s
  { s with last_processed_input := alInsert s.last_processed_input client_id message.sequence }

/-- Receive loop of `Server::process_client_messages`, fuelled by the queue
length like the client's. -/
def Server.pcmLoop (elapsed : Nat) : Nat → Server → Server
  | 0, s => s
  | fuel + 1, s =>
    match s.network.receive elapsed with
    | (some cm, n') => Server.pcmLoop elapsed fuel
        (Server.applyClientMessage { s with network := n' } cm.1 cm.2)
    | (none, n') => { s with network := n' }

/-- server.rs `Server::process_client_messages`. -/
def Server.process_client_messages (s : Server) (elapsed : Nat) : Server :=
  Server.pcmLoop elapsed s.network.messages.length s

/-- server.rs `Server::broadcast_state`: one `State` entry per world entity
(the source's `State` literal sets `entity_id`, `position` and `colour`;
`tick` is left at the derived default 0 — it is set nowhere in the
sources), then one message per connected client whose `sequence` is that
client's last processed input, defaulting to 0. -/
def Server.broadcast_state (s : Server) : List (Int × Message) :=
  let world_state : List State := s.world.entities.map (fun p =>
    { tick := 0, entity_id := p.1, position := p.2.position, colour := p.2.colour })
  s.connected_clients.map (fun client_id =>
    (client_id,
      { state := some world_state, input := none,
        sequence := (s.last_processed_input.lookup client_id).getD 0 }))

/-- server.rs `Server::update`: per emitted tick, move NPCs, drain client
messages, broadcast; the broadcast batches are collected in order. -/
def Server.update (s : Server) (frame_time : Nat) (net_elapsed : Nat)
    (disp : Int → ℚ × ℚ) : Server × List (List (Int × Message)) :=
  let tr := s.tick_timer.tick frame_time
  let s := { s with tick_timer := tr.2 }
  tr.1.foldl (fun acc tick =>
    let s := (acc.1).update_npc_entities (disp tick)
    let s := s.process_client_messages net_elapsed
    (s, acc.2 ++ [s.broadcast_state])) (s, [])

/-! ## Helper lemmas -/

theorem integrate_input_eq (e : Entity) (i : Input) :
    e.integrate_input i =
      { e with position :=
          (e.position.1 - (if i.left then e.speed else 0) + (if i.right then e.speed else 0),
           e.position.2 - (if i.up then e.speed else 0) + (if i.down then e.speed else 0)) } := by
  rcases e with ⟨⟨x, y⟩, s, col⟩
  rcases i with ⟨l, r, u, d⟩
  cases l <;> cases r <;> cases u <;> cases d <;>
    simp [Entity.integrate_input]

theorem integrate_input_speed (e : Entity) (i : Input) :
    (e.integrate_input i).speed = e.speed := by
  rw [integrate_input_eq]

theorem integrate_input_position_congr (e1 e2 : Entity) (i : Input)
    (hp : e1.position = e2.position) (hs : e1.speed = e2.speed) :
    (e1.integrate_input i).position = (e2.integrate_input i).position := by
  rw [integrate_input_eq, integrate_input_eq, hp, hs]

/-! ## C5: deterministic input integration -/

/-- C5: `integrate_input` moves the position by exactly `speed` per direction
flag, independently on each axis (left/right on x, up/down on y, no
normalization), and folding the same input sequence over two entities with
equal position and speed yields equal final positions. -/
theorem C5_integrate_input_formula_and_determinism :
    (∀ (e : Entity) (i : Input),
      e.integrate_input i =
        { e with position :=
            (e.position.1 - (if i.left then e.speed else 0) + (if i.right then e.speed else 0),
             e.position.2 - (if i.up then e.speed else 0) + (if i.down then e.speed else 0)) }) ∧
    (∀ (e1 e2 : Entity) (l : List Input),
      e1.position = e2.position → e1.speed = e2.speed →
      (l.foldl Entity.integrate_input e1).position =
        (l.foldl Entity.integrate_input e2).position) := by
  refine ⟨integrate_input_eq, ?_⟩
  intro e1 e2 l
  induction l generalizing e1 e2 with
  | nil => intro hp _; exact hp
  | cons i l ih =>
    intro hp hs
    simp only [List.foldl_cons]
    exact ih _ _ (integrate_input_position_congr e1 e2 i hp hs)
      (by rw [integrate_input_speed, integrate_input_speed, hs])

/-- Witness for C5 at a concrete input: two entities sharing position and
speed but not colour end at the same position after a diagonal input. -/
theorem C5_integrate_input_formula_and_determinism_witness :
    ([⟨true, false, false, true⟩].foldl Entity.integrate_input
        ⟨(0, 0), 5, Colour.Red⟩).position =
      ([⟨true, false, false, true⟩].foldl Entity.integrate_input
        ⟨(0, 0), 5, Colour.Blue⟩).position :=
  C5_integrate_input_formula_and_determinism.2 ⟨(0, 0), 5, Colour.Red⟩
    ⟨(0, 0), 5, Colour.Blue⟩ [⟨true, false, false, true⟩] rfl rfl

/-! ## C7: drop-rate boundary behaviour of `send` -/

/-- C7: modelling the drop roll as an explicit draw in `[0,1)`, `send`
discards the message exactly when the draw is below `drop_rate`; hence with
`drop_rate = 1` every send leaves the queue unchanged and with
`drop_rate = 0` every send appends exactly one entry at the tail. -/
theorem C7_drop_rate_boundary (n : UnreliableNetwork) (draw : ℚ)
    (latency elapsed : Nat) (sid : Int) (m : Message) :
    (draw < n.drop_rate → n.send draw latency elapsed sid m = n) ∧
    (¬ draw < n.drop_rate →
      n.send draw latency elapsed sid m =
        { n with messages := n.messages ++ [(elapsed + latency, sid, m)] }) ∧
    (n.drop_rate = 1 → 0 ≤ draw → draw < 1 →
      n.send draw latency elapsed sid m = n) ∧
    (n.drop_rate = 0 → 0 ≤ draw →
      n.send draw latency elapsed sid m =
        { n with messages := n.messages ++ [(elapsed + latency, sid, m)] }) := by
  refine ⟨fun h => ?_, fun h => ?_, fun h1 _ h2 => ?_, fun h0 hr => ?_⟩
  · simp [UnreliableNetwork.send, h]
  · simp [UnreliableNetwork.send, h]
  · simp [UnreliableNetwork.send, h1, h2]
  · have : ¬ draw < n.drop_rate := by rw [h0]; exact not_lt.mpr hr
    simp [UnreliableNetwork.send, this]

/-- Witness for C7 at concrete inputs: a channel with drop rate 1 drops a
message drawn at 1/2, and one with drop rate 0 enqueues it at the tail. -/
theorem C7_drop_rate_boundary_witness :
    UnreliableNetwork.send ⟨[], 0, 0, 1⟩ (1/2) 30 0 1
        { sequence := 0, state := none, input := none } = ⟨[], 0, 0, 1⟩ ∧
    UnreliableNetwork.send ⟨[], 0, 0, 0⟩ (1/2) 30 0 1
        { sequence := 0, state := none, input := none } =
      ⟨[(30, 1, { sequence := 0, state := none, input := none })], 0, 0, 0⟩ :=
  ⟨(C7_drop_rate_boundary ⟨[], 0, 0, 1⟩ (1/2) 30 0 1 _).2.2.1 rfl (by norm_num) (by norm_num),
   (C7_drop_rate_boundary ⟨[], 0, 0, 0⟩ (1/2) 30 0 1 _).2.2.2 rfl (by norm_num)⟩

/-! ## C3: tick conservation -/

theorem toI32_toI32_add (x k : Int) : toI32 (toI32 x + k) = toI32 (x + k) := by
  unfold toI32
  omega

theorem toI32_idem (x : Int) : toI32 (toI32 x) = toI32 x := by
  have h := toI32_toI32_add x 0
  simpa using h

/-- The sequence of `n` consecutive wrapped tick numbers starting at `t`. -/
def tickSeq (t : Int) (n : Nat) : List Int :=
  (List.range n).map (fun k : Nat => toI32 (t + (k : Int)))

theorem tickSeq_zero (t : Int) : tickSeq t 0 = [] := rfl

theorem tickSeq_succ (t : Int) (ht : toI32 t = t) (n : Nat) :
    tickSeq t (n + 1) = t :: tickSeq (toI32 (t + 1)) n := by
  unfold tickSeq
  rw [List.range_succ_eq_map, List.map_cons, List.map_map]
  refine congrArg₂ List.cons (by simpa using ht) ?_
  refine List.map_congr_left fun k _ => ?_
  show toI32 (t + ((k.succ : Nat) : Int)) = toI32 (toI32 (t + 1) + (k : Int))
  rw [toI32_toI32_add]
  refine congrArg toI32 ?_
  push_cast
  ring

theorem tickSeq_append (t : Int) (a b : Nat) :
    tickSeq t (a + b) = tickSeq t a ++ tickSeq (toI32 (t + (a : Int))) b := by
  unfold tickSeq
  rw [List.range_add, List.map_append, List.map_map]
  refine congrArg₂ List.append rfl ?_
  refine List.map_congr_left fun k _ => ?_
  show toI32 (t + ((a + k : Nat) : Int)) = toI32 (toI32 (t + (a : Int)) + (k : Int))
  rw [toI32_toI32_add]
  refine congrArg toI32 ?_
  push_cast
  ring

theorem tickLoop_eq (interval : Nat) (hI : 0 < interval) :
    ∀ (fuel acc : Nat) (t : Int), acc ≤ fuel → toI32 t = t →
      tickLoop interval fuel acc t =
        (tickSeq t (acc / interval), acc % interval,
         toI32 (t + ((acc / interval : Nat) : Int))) := by
  intro fuel
  induction fuel with
  | zero =>
    intro acc t ha ht
    have hacc : acc = 0 := Nat.le_zero.mp ha
    subst hacc
    simp [tickLoop, tickSeq, Nat.zero_div, Nat.zero_mod, ht]
  | succ fuel ih =>
    intro acc t ha ht
    by_cases hc : interval ≤ acc
    · have hdiv : acc / interval = (acc - interval) / interval + 1 := by
        rw [Nat.div_eq]
        simp [hI, hc]
      have hmod : acc % interval = (acc - interval) % interval := by
        rw [Nat.mod_eq]
        simp [hI, hc]
      have hrec := ih (acc - interval) (toI32 (t + 1)) (by omega) (toI32_idem (t + 1))
      rw [tickLoop]
      simp only [if_pos hc, hrec]
      simp only [Prod.mk.injEq]
      refine ⟨?_, hmod.symm, ?_⟩
      · rw [hdiv, tickSeq_succ t ht]
      · rw [toI32_toI32_add, hdiv]
        refine congrArg toI32 ?_
        push_cast
        ring
    · have hlt : acc < interval := Nat.lt_of_not_le hc
      rw [tickLoop]
      simp [if_neg hc, Nat.div_eq_of_lt hlt, Nat.mod_eq_of_lt hlt, tickSeq, ht]

theorem tick_eq (tt : TickTimer) (d : Nat) (hI : 0 < tt.tick_interval)
    (ht : toI32 tt.current_tick = tt.current_tick) :
    tt.tick d =
      (tickSeq tt.current_tick ((tt.time_available + d) / tt.tick_interval),
       { tt with
          time_available := (tt.time_available + d) % tt.tick_interval,
          current_tick :=
            toI32 (tt.current_tick +
              (((tt.time_available + d) / tt.tick_interval : Nat) : Int)) }) := by
  simp only [TickTimer.tick]
  rw [tickLoop_eq tt.tick_interval hI (tt.time_available + d) (tt.time_available + d)
    tt.current_tick le_rfl ht]

theorem div_chunk (I a m : Nat) (hI : 0 < I) :
    a / I + (a % I + m) / I = (a + m) / I := by
  conv_rhs => rw [← Nat.div_add_mod a I]
  rw [Nat.add_assoc, Nat.mul_add_div hI]

theorem runTimer_eq (ds : List Nat) :
    ∀ (tt : TickTimer), tt.time_available < tt.tick_interval →
      toI32 tt.current_tick = tt.current_tick →
      runTimer tt ds =
        (tickSeq tt.current_tick ((tt.time_available + ds.sum) / tt.tick_interval),
         { tt with
            time_available := (tt.time_available + ds.sum) % tt.tick_interval,
            current_tick :=
              toI32 (tt.current_tick +
                (((tt.time_available + ds.sum) / tt.tick_interval : Nat) : Int)) }) := by
  induction ds with
  | nil =>
    intro tt hta ht
    simp [runTimer, Nat.div_eq_of_lt hta, Nat.mod_eq_of_lt hta, tickSeq, ht]
  | cons d ds ih =>
    intro tt hta ht
    have hI : 0 < tt.tick_interval := by omega
    have hq : (tt.time_available + d) / tt.tick_interval +
        ((tt.time_available + d) % tt.tick_interval + ds.sum) / tt.tick_interval =
        (tt.time_available + (d :: ds).sum) / tt.tick_interval := by
      rw [div_chunk _ _ _ hI]
      simp [List.sum_cons, Nat.add_assoc]
    have hm : ((tt.time_available + d) % tt.tick_interval + ds.sum) % tt.tick_interval =
        (tt.time_available + (d :: ds).sum) % tt.tick_interval := by
      rw [Nat.mod_add_mod]
      simp [List.sum_cons, Nat.add_assoc]
    rw [runTimer]
    rw [tick_eq tt d hI ht]
    rw [ih _ (Nat.mod_lt _ hI) (toI32_idem _)]
    simp only [Prod.mk.injEq]
    constructor
    · rw [← hq, tickSeq_append]
    · simp only [TickTimer.mk.injEq, and_true, true_and]
      refine ⟨?_, hm⟩
      rw [toI32_toI32_add, ← hq]
      refine congrArg toI32 ?_
      push_cast
      ring

/-- C3: feeding any sequence of frame times to successive `tick` calls emits
exactly `floor((accumulator + total elapsed) / interval)` ticks, so the count
is invariant under re-chunking of the same total elapsed time, and the
emitted tick numbers are consecutive `i32` values starting from the current
counter, wrapping on overflow.  The hypotheses are the timer's representation
invariants (accumulator below the interval, counter in `i32` range), both
established by `TickTimer::new` and preserved by every `tick` call. -/
theorem C3_tick_conservation (tt : TickTimer) (ds : List Nat)
    (hta : tt.time_available < tt.tick_interval)
    (ht : toI32 tt.current_tick = tt.current_tick) :
    (runTimer tt ds).1.length = (tt.time_available + ds.sum) / tt.tick_interval ∧
    (runTimer tt ds).1 = tickSeq tt.current_tick
      ((tt.time_available + ds.sum) / tt.tick_interval) ∧
    (∀ ds' : List Nat, ds'.sum = ds.sum → (runTimer tt ds').1 = (runTimer tt ds).1) := by
  have h := runTimer_eq ds tt hta ht
  refine ⟨?_, ?_, ?_⟩
  · rw [h]
    simp [tickSeq]
  · rw [h]
  · intro ds' hsum
    rw [h, runTimer_eq ds' tt hta ht, hsum]

/-- Witness for C3: a 50ms timer fed 70ms then 80ms emits 3 ticks. -/
theorem C3_tick_conservation_witness :
    (runTimer ⟨50, 0, 0⟩ [70, 80]).1.length = ((0 : Nat) + [70, 80].sum) / 50 :=
  (C3_tick_conservation ⟨50, 0, 0⟩ [70, 80] (by decide) (by decide)).1

/-! ## C2: head-only receive and send-order delivery -/

theorem send_drop_rate (n : UnreliableNetwork) (r : ℚ) (lat el : Nat) (sid : Int)
    (m : Message) : (n.send r lat el sid m).drop_rate = n.drop_rate := by
  unfold UnreliableNetwork.send
  split <;> rfl

theorem payloads_append (a b : List (Nat × Int × Message)) :
    payloads (a ++ b) = payloads a ++ payloads b := by
  simp [payloads]

theorem runNet_conservation (ops : List NetOp) :
    ∀ n : UnreliableNetwork,
      (runNet n ops).2 ++ payloads (runNet n ops).1.messages =
        payloads n.messages ++ sentList n.drop_rate ops := by
  induction ops with
  | nil => intro n; simp [runNet, sentList]
  | cons op ops ih =>
    intro n
    cases op with
    | sendOp r lat el sid m =>
      rw [runNet, sentList, ih (n.send r lat el sid m), send_drop_rate]
      by_cases h : r < n.drop_rate
      · simp [UnreliableNetwork.send, h]
      · simp [UnreliableNetwork.send, h, payloads_append, payloads]
    | recvOp el =>
      rcases hm : n.messages with _ | ⟨⟨d, sid, m⟩, rest⟩
      · rw [runNet, sentList]
        simp only [UnreliableNetwork.receive, hm]
        rw [ih n, hm]
      · rw [runNet, sentList]
        simp only [UnreliableNetwork.receive, hm]
        by_cases hd : d ≤ el
        · simp only [if_pos hd]
          have := ih { n with messages := rest }
          simp only [List.cons_append, this, hm]
          simp [payloads]
        · simp only [if_neg hd]
          have := ih { n with messages := (d, sid, m) :: rest }
          simp only [this, hm]

/-- The head-blocking scenario of §8 of the spec: message A with latency 200
then message B with latency 10, both sent at time 0 on a lossless channel. -/
def headBlockOps : List NetOp :=
  [NetOp.sendOp 0 200 0 1 { sequence := 1, state := none, input := none },
   NetOp.sendOp 0 10 0 1 { sequence := 2, state := none, input := none },
   NetOp.recvOp 50]

/-- C2: `receive` inspects only the head of the queue — a due head is popped
and returned, an undue head leaves the queue exactly unchanged — and over any
trace of sends and receives the delivered messages followed by the remaining
queue equal the enqueued messages in send order (delivery is a prefix of the
send order, so a later send is never yielded before an earlier one).  In the
concrete A/B scenario, B (deliver-at 10) is not yielded at time 50 because A
(deliver-at 200) still heads the queue. -/
theorem C2_head_blocking (n : UnreliableNetwork) (ops : List NetOp) :
    ((runNet n ops).2 ++ payloads (runNet n ops).1.messages =
      payloads n.messages ++ sentList n.drop_rate ops) ∧
    (∀ elapsed : Nat, (n.receive elapsed).1 = none → (n.receive elapsed).2 = n) ∧
    (∀ (elapsed d : Nat) (sid : Int) (m : Message) (rest : List (Nat × Int × Message)),
      n.messages = (d, sid, m) :: rest →
      (d ≤ elapsed → n.receive elapsed = (some (sid, m), { n with messages := rest })) ∧
      (¬ d ≤ elapsed → n.receive elapsed = (none, n))) ∧
    (runNet ⟨[], 0, 0, 0⟩ headBlockOps).2 = [] := by
  refine ⟨runNet_conservation ops n, ?_, ?_, ?_⟩
  · intro elapsed
    unfold UnreliableNetwork.receive
    rcases hm : n.messages with _ | ⟨⟨d, sid, m⟩, rest⟩
    · intro _; rfl
    · by_cases hd : d ≤ elapsed
      · simp [hd]
      · simp [hd, ← hm]
  · intro elapsed d sid m rest hm
    constructor
    · intro hd
      unfold UnreliableNetwork.receive
      rw [hm]
      simp [hd]
    · intro hd
      unfold UnreliableNetwork.receive
      rw [hm]
      simp [hd, ← hm]
  · decide

/-- Witness for C2: on a queue headed by an undue entry `receive` returns
nothing and leaves the channel unchanged, and once due the head is popped. -/
theorem C2_head_blocking_witness :
    (UnreliableNetwork.receive
        ⟨[(200, 1, { sequence := 1, state := none, input := none })], 0, 0, 0⟩ 50 =
      (none, ⟨[(200, 1, { sequence := 1, state := none, input := none })], 0, 0, 0⟩)) ∧
    (UnreliableNetwork.receive
        ⟨[(200, 1, { sequence := 1, state := none, input := none })], 0, 0, 0⟩ 300 =
      (some (1, { sequence := 1, state := none, input := none }), ⟨[], 0, 0, 0⟩)) :=
  ⟨((C2_head_blocking
        ⟨[(200, 1, { sequence := 1, state := none, input := none })], 0, 0, 0⟩ []).2.2.1
      50 200 1 { sequence := 1, state := none, input := none } [] rfl).2 (by decide),
   ((C2_head_blocking
        ⟨[(200, 1, { sequence := 1, state := none, input := none })], 0, 0, 0⟩ []).2.2.1
      300 200 1 { sequence := 1, state := none, input := none } [] rfl).1 (by decide)⟩

/-! ## C4: staleness filter on server messages -/

/-- A server→client message carrying one `State` for entity 1 at x-position
`x`, with the given sequence number. -/
def seqMsg (seq : Int) (x : ℚ) : Message :=
  { sequence := seq,
    state := some [{ tick := 0, entity_id := 1, position := (x, 0), colour := Colour.Red }],
    input := none }

/-- A freshly connected client whose incoming queue holds messages with
sequences 5, 3, 7, 6 (in that order), all already deliverable. -/
def c4Client : Client :=
  { id := 2, tick_timer := ⟨50, 20, 0⟩,
    network := ⟨[(0, 0, seqMsg 5 5), (0, 0, seqMsg 3 3), (0, 0, seqMsg 7 7),
                 (0, 0, seqMsg 6 6)], 0, 0, 0⟩,
    server_network_set := true, entities := [], controlled_entity := none,
    input_state := none, input_history := [], last_message_sequence := 0,
    client_prediction_enabled := true, server_reconciliation_enabled := true,
    extrapolation_enabled := true, state_snapshots := [], use_alternate_input := false,
    colour := Colour.Red, connected := true }

/-- C4: a drained message is discarded — the client state left exactly as it
was — precisely when its sequence is below the high-water mark; otherwise
(equality included) it is applied and `last_message_sequence` becomes its
sequence.  Draining sequences [5, 3, 7, 6] from high-water mark 0 applies 5,
drops 3, applies 7, drops 6 and ends at 7 (only the snapshots of 5 and 7 were
stored, in order). -/
theorem C4_staleness_filter :
    (∀ (tick : Int) (c : Client) (m : Message),
      m.sequence < c.last_message_sequence → Client.applyMessage tick c m = c) ∧
    (∀ (tick : Int) (c : Client) (m : Message),
      ¬ m.sequence < c.last_message_sequence →
      Client.applyMessage tick c m =
        (m.state.getD []).foldl (Client.applyState tick)
          { c with last_message_sequence := m.sequence }) ∧
    ((Client.process_server_messages c4Client 10 20).last_message_sequence = 7 ∧
     (Client.process_server_messages c4Client 10 20).state_snapshots =
       [(20, { tick := 0, entity_id := 1, position := (5, 0), colour := Colour.Red }),
        (20, { tick := 0, entity_id := 1, position := (7, 0), colour := Colour.Red })] ∧
     (Client.process_server_messages c4Client 10 20).network.messages = []) := by
  refine ⟨?_, ?_, ?_⟩
  · intro tick c m h
    simp [Client.applyMessage, h]
  · intro tick c m h
    simp only [Client.applyMessage, if_neg h]
    rcases m.state with _ | ws <;> simp
  · decide

/-- Witness for C4: a message with sequence 3 against high-water mark 5 is
discarded outright, and one with equal sequence 5 is applied. -/
theorem C4_staleness_filter_witness :
    (Client.applyMessage 0 { c4Client with last_message_sequence := 5 } (seqMsg 3 3) =
      { c4Client with last_message_sequence := 5 }) ∧
    (Client.applyMessage 0 { c4Client with last_message_sequence := 5 } (seqMsg 5 5) =
      ((seqMsg 5 5).state.getD []).foldl (Client.applyState 0)
        { { c4Client with last_message_sequence := 5 } with
            last_message_sequence := (seqMsg 5 5).sequence }) :=
  ⟨C4_staleness_filter.1 0 { c4Client with last_message_sequence := 5 } (seqMsg 3 3)
      (by decide),
   C4_staleness_filter.2.1 0 { c4Client with last_message_sequence := 5 } (seqMsg 5 5)
      (by decide)⟩

/-! ## C1: reconciliation cutoff -/

/-- The rightward input flag tuple. -/
def inputRight : Input := { left := false, right := true, up := false, down := false }

/-- A server that has already integrated client 2's input up to tick 5
(`last_processed_input = [(2, 5)]`) and whose world holds that client's
entity 1 at the authoritative position (10, 10). -/
def c1Server : Server :=
  { id := 0, tick_timer := ⟨50, 0, 0⟩, tick_rate_ms := 50, network := ⟨[], 0, 0, 0⟩,
    connected_clients := [2],
    world := { entities := [(1, { position := (10, 10), speed := 5, colour := Colour.Red })],
               latest_entity_id := 1 },
    npc_entities := [], networked_players := [(2, 1)], last_processed_input := [(2, 5)] }

/-- The message `broadcast_state` produces for client 2 from `c1Server`: the
acknowledged input tick 5 is echoed in `sequence`, while the `State` entry's
`tick` field is the unset default 0. -/
def c1Msg : Message :=
  { sequence := 5,
    state := some [{ tick := 0, entity_id := 1, position := (10, 10), colour := Colour.Red }],
    input := none }

/-- Client 2 controlling entity 1, reconciliation enabled, with a single
pending input (tick 3, rightward) — already processed by the server, since
the echoed acknowledgment is 5. -/
def c1Client : Client :=
  { id := 2, tick_timer := ⟨50, 6, 0⟩, network := ⟨[], 0, 0, 0⟩,
    server_network_set := true,
    entities := [(1, { position := (0, 0), speed := 5, colour := Colour.Red })],
    controlled_entity := some 1, input_state := none,
    input_history := [(3, inputRight)], last_message_sequence := 0,
    client_prediction_enabled := true, server_reconciliation_enabled := true,
    extrapolation_enabled := true, state_snapshots := [], use_alternate_input := false,
    colour := Colour.Red, connected := true }

/-- C1 (divergence of the code from the claim): the server echoes ack = 5 in
the message's `sequence`, so by the claim the retained history should be the
entries with tick ≥ 6 — none — and the position should stay at the
authoritative (10, 10).  The code instead prunes with `state.tick + 1`
(client.rs line 191), and `state.tick` is never populated by the server (the
`State` literal in `Server::broadcast_state` leaves it at the default 0), so
the already-acknowledged input of tick 3 survives the pruning and is
replayed, moving the entity to (15, 10). -/
theorem C1_reconciliation_cutoff_divergence :
    Server.broadcast_state c1Server = [(2, c1Msg)] ∧
    (Client.applyMessage 0 c1Client c1Msg).last_message_sequence = 5 ∧
    (Client.applyMessage 0 c1Client c1Msg).input_history = [(3, inputRight)] ∧
    (Client.applyMessage 0 c1Client c1Msg).entities.lookup 1 =
      some { position := (15, 10), speed := 5, colour := Colour.Red } := by
  refine ⟨by decide, by decide, by decide, ?_⟩
  show (Client.applyMessage 0 c1Client c1Msg).entities.lookup 1 = _
  norm_num [Client.applyMessage, Client.applyState, Entity.integrate_input,
    alModify, alInsert, c1Client, c1Msg, inputRight, List.lookup]

/-! ## C9: update on a not-connected client -/

/-- A not-yet-connected client (fresh from `Client::new` except that 100ms of
real time are about to be handed to its timer). -/
def c9Client : Client :=
  { id := 3, tick_timer := ⟨50, 0, 0⟩, network := ⟨[], 0, 0, 0⟩,
    server_network_set := false, entities := [], controlled_entity := none,
    input_state := none, input_history := [], last_message_sequence := 0,
    client_prediction_enabled := true, server_reconciliation_enabled := true,
    extrapolation_enabled := true, state_snapshots := [], use_alternate_input := false,
    colour := Colour.Red, connected := false }

/-- C9 counterexample: the claim says an unconnected client's `update` still
advances the tick timer (two full 50ms intervals in 100ms would increment the
counter to 2, as ticking the timer directly shows), but `update` returns
before touching the timer: the whole client, counter included, is unchanged
and nothing is sent. -/
theorem C9_claim_counterexample :
    Client.update c9Client 100 0 false false false false = (c9Client, []) ∧
    (Client.update c9Client 100 0 false false false false).1.tick_timer.current_tick = 0 ∧
    (c9Client.tick_timer.tick 100).2.current_tick = 2 ∧
    (c9Client.tick_timer.tick 100).1 = [0, 1] := by
  refine ⟨?_, by decide, by decide, by decide⟩
  show Client.update c9Client 100 0 false false false false = (c9Client, [])
  decide

/-- C9 (amended): when the client is not connected, `update` returns
immediately as a complete no-op — the tick timer is not advanced (no elapsed
time is consumed and the counter is unchanged), no message is received or
sent, and the entity map, input history and snapshot buffer are unchanged. -/
theorem C9_disconnected_update_noop (c : Client) (frame_time net_elapsed : Nat)
    (l r u d : Bool) (h : c.connected = false) :
    Client.update c frame_time net_elapsed l r u d = (c, []) := by
  simp [Client.update, h]

/-- Witness for C9 (amended) at the concrete unconnected client. -/
theorem C9_disconnected_update_noop_witness :
    Client.update c9Client 70 5 true false false true = (c9Client, []) :=
  C9_disconnected_update_noop c9Client 70 5 true false false true (by decide)

/-! ## C8: per-client broadcast with individual acknowledgment sequence -/

/-- The `State` list snapshot `broadcast_state` builds: one entry per world
entity, in order. -/
def worldStateOf (s : Server) : List State :=
  s.world.entities.map (fun p =>
    { tick := 0, entity_id := p.1, position := p.2.position, colour := p.2.colour })

theorem broadcast_state_eq (s : Server) :
    Server.broadcast_state s = s.connected_clients.map (fun client_id =>
      (client_id,
        { state := some (worldStateOf s), input := none,
          sequence := (s.last_processed_input.lookup client_id).getD 0 })) := rfl

theorem serverFold_length (el : Nat) (disp : Int → ℚ × ℚ) (ticks : List Int) :
    ∀ (s : Server) (out : List (List (Int × Message))),
      (ticks.foldl (fun acc tick =>
        let s := (acc.1).update_npc_entities (disp tick)
        let s := s.process_client_messages el
        (s, acc.2 ++ [s.broadcast_state])) (s, out)).2.length = out.length + ticks.length := by
  induction ticks with
  | nil => intro s out; simp
  | cons t ts ih =>
    intro s out
    simp only [List.foldl_cons]
    rw [ih]
    simp [Nat.add_assoc, Nat.add_comm 1 ts.length]

/-- C8: each `broadcast_state` call produces exactly one message per
connected client; every message carries the same `State` list — one entry per
world entity, keyed by entity id, no input payload — and its `sequence` is
that client's own last-processed-input tick, defaulting to 0 when no input
from the client was ever processed.  Each server tick performs exactly one
such broadcast, after the client messages are drained. -/
theorem C8_broadcast_per_client (s : Server) :
    ((Server.broadcast_state s).map Prod.fst = s.connected_clients) ∧
    (∀ cm ∈ Server.broadcast_state s,
      cm.2.state = some (worldStateOf s) ∧
      cm.2.input = none ∧
      cm.2.sequence = (s.last_processed_input.lookup cm.1).getD 0) ∧
    ((worldStateOf s).map State.entity_id = s.world.entities.map Prod.fst) ∧
    ((worldStateOf s).length = s.world.entities.length) ∧
    (∀ (frame_time net_elapsed : Nat) (disp : Int → ℚ × ℚ),
      (Server.update s frame_time net_elapsed disp).2.length =
        ((s.tick_timer.tick frame_time).1).length) := by
  refine ⟨?_, ?_, ?_, ?_, ?_⟩
  · rw [broadcast_state_eq, List.map_map]
    exact List.map_id _
  · intro cm hcm
    rw [broadcast_state_eq] at hcm
    simp only [List.mem_map] at hcm
    obtain ⟨cid, _, rfl⟩ := hcm
    exact ⟨rfl, rfl, rfl⟩
  · simp [worldStateOf]
  · simp [worldStateOf]
  · intro frame_time net_elapsed disp
    simp only [Server.update]
    rw [serverFold_length]
    simp

/-- A server with one connected client (id 2) and one world entity, having
acknowledged that client's input up to tick 5. -/
def c8Server : Server :=
  { id := 0, tick_timer := ⟨50, 0, 0⟩, tick_rate_ms := 50, network := ⟨[], 0, 0, 0⟩,
    connected_clients := [2],
    world := { entities := [(1, { position := (3, 4), speed := 5, colour := Colour.Green })],
               latest_entity_id := 1 },
    npc_entities := [], networked_players := [(2, 1)], last_processed_input := [(2, 5)] }

/-- The message `broadcast_state` produces for client 2 from `c8Server`. -/
def c8Msg : Message :=
  { state := some (worldStateOf c8Server), input := none, sequence := 5 }

/-- Witness for C8 at the concrete server: the single broadcast message goes
to client 2, carries the snapshot of the whole world and echoes sequence 5. -/
theorem C8_broadcast_per_client_witness :
    ((Server.broadcast_state c8Server).map Prod.fst = [2]) ∧
    ((2, c8Msg) : Int × Message).2.state = some (worldStateOf c8Server) ∧
    ((2, c8Msg) : Int × Message).2.sequence =
      ((c8Server.last_processed_input.lookup 2).getD 0) :=
  ⟨(C8_broadcast_per_client c8Server).1,
   ((C8_broadcast_per_client c8Server).2.1 (2, c8Msg) (by decide)).1,
   ((C8_broadcast_per_client c8Server).2.1 (2, c8Msg) (by decide)).2.2⟩

/-! ## C6: interpolation of remote entities -/

theorem pruneSnapshots_short (rt : Int) (l : List (Int × State)) (h : l.length ≤ 1) :
    pruneSnapshots rt l = l := by
  match l with
  | [] => rfl
  | [s] => rfl
  | s0 :: s1 :: rest => simp at h

theorem pruneSnapshots_idem (rt : Int) :
    ∀ l : List (Int × State), pruneSnapshots rt (pruneSnapshots rt l) = pruneSnapshots rt l := by
  intro l
  induction l with
  | nil => rfl
  | cons a rest ih =>
    cases rest with
    | nil => rfl
    | cons b rest' =>
      rw [pruneSnapshots]
      by_cases h : b.1 ≤ rt
      · rw [if_pos h]
        exact ih
      · rw [if_neg h, pruneSnapshots, if_neg h]

theorem interpStep_buf (co : Option Int) (rt : Int) (b : List (Int × State))
    (e : Int × Entity) :
    (interpStep co rt b e).2 = b ∨
      ((interpStep co rt b e).2 = pruneSnapshots rt b ∧ 2 ≤ b.length) := by
  unfold interpStep
  by_cases h1 : co = some e.1
  · simp [h1]
  · simp only [if_neg h1]
    by_cases h2 : 2 ≤ b.length
    · simp only [if_pos h2]
      rcases hpb : pruneSnapshots rt b with _ | ⟨⟨t0, s0⟩, _ | ⟨⟨t1, s1⟩, rest⟩⟩
      · exact Or.inr (by simp [h2])
      · exact Or.inr (by simp [h2])
      · by_cases hbr : t0 ≤ rt ∧ rt ≤ t1
        · simp only [if_pos hbr]
          exact Or.inr (by simp [h2])
        · simp only [if_neg hbr]
          exact Or.inr (by simp [h2])
    · simp [h2]

theorem interpStep_out_prune (co : Option Int) (rt : Int) (b : List (Int × State))
    (e : Int × Entity) (h2 : 2 ≤ b.length) :
    (interpStep co rt (pruneSnapshots rt b) e).1 = (interpStep co rt b e).1 := by
  by_cases h1 : co = some e.1
  · simp [interpStep, h1]
  · rcases hpb : pruneSnapshots rt b with _ | ⟨⟨t0, s0⟩, _ | ⟨⟨t1, s1⟩, rest⟩⟩
    · simp [interpStep, h1, h2, hpb]
    · simp [interpStep, h1, h2, hpb]
    · have hidem := pruneSnapshots_idem rt b
      rw [hpb] at hidem
      unfold interpStep
      rw [hpb]
      simp only [if_neg h1, if_pos h2, hidem]
      have hl : 2 ≤ ((t0, s0) :: (t1, s1) :: rest).length := by simp
      simp only [if_pos hl]

theorem interpGo_out (co : Option Int) (rt : Int) :
    ∀ (es : List (Int × Entity)) (b c : List (Int × State)),
      (∀ e, (interpStep co rt c e).1 = (interpStep co rt b e).1) →
      (interpGo co rt es c).1 = es.map (fun e => (interpStep co rt b e).1) := by
  intro es
  induction es with
  | nil => intro b c _; rfl
  | cons e es ih =>
    intro b c h
    simp only [interpGo, List.map_cons]
    refine congrArg₂ List.cons (h e) ?_
    refine ih b (interpStep co rt c e).2 ?_
    intro e'
    rcases interpStep_buf co rt c e with hb | ⟨hb, hlen⟩
    · rw [hb]
      exact h e'
    · rw [hb, interpStep_out_prune co rt c e' hlen]
      exact h e'

/-- C6: on each tick, with `render_tick = tick − 10`, each non-controlled
entity's new position is computed against the shared snapshot buffer exactly
as if it were alone: the buffer is first pruned from the front while a
second-oldest snapshot with tick ≤ render_tick exists, then, iff the two
oldest remaining snapshots bracket render_tick, the position is the linear
interpolation `pos0 + (pos1 − pos0)·(render_tick − t0)/(t1 − t0)`; otherwise
(no bracket, or fewer than two snapshots remain) the position is unchanged. -/
theorem C6_interpolation_bracketing (c : Client) (tick : Int) :
    ((c.interpolate_entities tick).entities =
      c.entities.map (fun e =>
        (interpStep c.controlled_entity (tick - 10) c.state_snapshots e).1)) ∧
    (∀ (id : Int) (e : Entity), c.controlled_entity ≠ some id →
      2 ≤ c.state_snapshots.length →
      ∀ (t0 : Int) (s0 : State) (t1 : Int) (s1 : State) (rest : List (Int × State)),
      pruneSnapshots (tick - 10) c.state_snapshots = (t0, s0) :: (t1, s1) :: rest →
      (interpStep c.controlled_entity (tick - 10) c.state_snapshots (id, e)).1 =
        (if t0 ≤ tick - 10 ∧ tick - 10 ≤ t1 then
          (id, { e with position :=
            (s0.position.1 + (s1.position.1 - s0.position.1) *
              ((tick - 10 - t0 : Int) : ℚ) / ((t1 - t0 : Int) : ℚ),
             s0.position.2 + (s1.position.2 - s0.position.2) *
              ((tick - 10 - t0 : Int) : ℚ) / ((t1 - t0 : Int) : ℚ)) })
        else (id, e))) ∧
    (∀ (id : Int) (e : Entity), c.controlled_entity ≠ some id →
      (pruneSnapshots (tick - 10) c.state_snapshots).length ≤ 1 →
      (interpStep c.controlled_entity (tick - 10) c.state_snapshots (id, e)).1 = (id, e)) ∧
    (∀ (id : Int) (e : Entity), c.controlled_entity = some id →
      (interpStep c.controlled_entity (tick - 10) c.state_snapshots (id, e)).1 = (id, e)) := by
  refine ⟨?_, ?_, ?_, ?_⟩
  · unfold Client.interpolate_entities
    exact interpGo_out c.controlled_entity (tick - 10) c.entities c.state_snapshots
      c.state_snapshots (fun _ => rfl)
  · intro id e h1 h2 t0 s0 t1 s1 rest hpb
    unfold interpStep
    simp only [if_neg h1, if_pos h2, hpb]
    by_cases hbr : t0 ≤ tick - 10 ∧ tick - 10 ≤ t1
    · simp only [if_pos hbr]
      rw [mul_div_assoc, mul_div_assoc]
    · simp only [if_neg hbr]
  · intro id e h1 hlen
    unfold interpStep
    simp only [if_neg h1]
    by_cases h2 : 2 ≤ c.state_snapshots.length
    · simp only [if_pos h2]
      rcases hpb : pruneSnapshots (tick - 10) c.state_snapshots
        with _ | ⟨⟨t0, s0⟩, _ | ⟨⟨t1, s1⟩, rest⟩⟩
      · rfl
      · rfl
      · rw [hpb] at hlen
        simp at hlen
    · simp only [if_neg h2]
  · intro id e h1
    unfold interpStep
    simp [h1]

/-- The remote entity of the concrete interpolation example, far from the
snapshot positions. -/
def c6Entity : Entity := { position := (100, 200), speed := 5, colour := Colour.Blue }

/-- Snapshot at tick 10, position (0, 0). -/
def c6SnapA : State := { tick := 0, entity_id := 1, position := (0, 0), colour := Colour.Blue }

/-- Snapshot at tick 20, position (10, 0). -/
def c6SnapB : State := { tick := 0, entity_id := 1, position := (10, 0), colour := Colour.Blue }

/-- A client holding the remote entity 1 and the snapshot buffer
[(10, (0,0)), (20, (10,0))] of the spec's interpolation example. -/
def c6Client : Client :=
  { id := 4, tick_timer := ⟨50, 25, 0⟩, network := ⟨[], 0, 0, 0⟩,
    server_network_set := true, entities := [(1, c6Entity)],
    controlled_entity := none, input_state := none, input_history := [],
    last_message_sequence := 0, client_prediction_enabled := true,
    server_reconciliation_enabled := true, extrapolation_enabled := true,
    state_snapshots := [(10, c6SnapA), (20, c6SnapB)], use_alternate_input := false,
    colour := Colour.Red, connected := true }

/-- Witness for C6 (and the spec's concrete example): at tick 25
(render_tick 15) the bracketed interpolation puts entity 1 at (5, 0), and at
tick 35 (render_tick 25, no upper bracket after pruning) its position is
unchanged. -/
theorem C6_interpolation_bracketing_witness :
    ((c6Client.interpolate_entities 25).entities.lookup 1 =
      some { position := ((5 : ℚ), (0 : ℚ)), speed := 5, colour := Colour.Blue }) ∧
    ((c6Client.interpolate_entities 35).entities.lookup 1 = some c6Entity) := by
  constructor
  · have hmap := (C6_interpolation_bracketing c6Client 25).1
    have hstep := (C6_interpolation_bracketing c6Client 25).2.1 1 c6Entity
      (by decide) (by decide) 10 c6SnapA 20 c6SnapB [] (by decide)
    rw [hmap]
    show List.lookup 1 (List.map _ [(1, c6Entity)]) = _
    rw [List.map_cons, List.map_nil, hstep]
    norm_num [c6SnapA, c6SnapB, c6Entity, List.lookup]
  · have hmap := (C6_interpolation_bracketing c6Client 35).1
    have hstep := (C6_interpolation_bracketing c6Client 35).2.2.1 1 c6Entity
      (by decide) (by decide)
    rw [hmap]
    show List.lookup 1 (List.map _ [(1, c6Entity)]) = _
    rw [List.map_cons, List.map_nil, hstep]
    simp [List.lookup]

/-! ## C10: fresh entity ids and entity persistence -/

theorem lookup_alInsert {α : Type} (l : List (Int × α)) (k k' : Int) (v : α) :
    (alInsert l k v).lookup k' = if k' = k then some v else l.lookup k' := by
  induction l with
  | nil =>
    by_cases h : k' = k
    · subst h
      simp [alInsert]
    · simp [alInsert, List.lookup_cons, beq_false_of_ne h, h]
  | cons a rest ih =>
    rcases a with ⟨k0, v0⟩
    rw [alInsert]
    by_cases h0 : k0 = k
    · subst h0
      by_cases h : k' = k0
      · subst h
        simp [List.lookup_cons]
      · simp [List.lookup_cons, beq_false_of_ne h, h]
    · by_cases h : k' = k0
      · subst h
        simp [List.lookup_cons, if_neg h0, h0]
      · simp only [if_neg h0]
        simp only [List.lookup_cons, beq_false_of_ne h]
        exact ih

theorem lookup_alModify {α : Type} (l : List (Int × α)) (k k' : Int) (f : α → α) :
    (alModify l k f).lookup k' =
      if k' = k then (l.lookup k').map f else l.lookup k' := by
  induction l with
  | nil =>
    by_cases h : k' = k <;> simp [alModify, h]
  | cons a rest ih =>
    rcases a with ⟨k0, v0⟩
    rw [alModify]
    by_cases h0 : k0 = k
    · subst h0
      by_cases h : k' = k0
      · subst h
        simp [List.lookup_cons]
      · simp [List.lookup_cons, beq_false_of_ne h, h]
    · by_cases h : k' = k0
      · subst h
        simp [List.lookup_cons, h0]
      · simp only [if_neg h0]
        simp only [List.lookup_cons, beq_false_of_ne h]
        exact ih

theorem alModify_map_fst {α : Type} (l : List (Int × α)) (k : Int) (f : α → α) :
    (alModify l k f).map Prod.fst = l.map Prod.fst := by
  induction l with
  | nil => rfl
  | cons a rest ih =>
    rcases a with ⟨k0, v0⟩
    rw [alModify]
    by_cases h0 : k0 = k
    · subst h0
      simp
    · simp [if_neg h0, ih]

theorem lookup_isSome_alInsert {α : Type} (l : List (Int × α)) (k k' : Int) (v : α)
    (h : (l.lookup k').isSome) : ((alInsert l k v).lookup k').isSome := by
  rw [lookup_alInsert]
  by_cases hk : k' = k <;> simp [hk, h]

theorem lookup_isSome_alModify {α : Type} (l : List (Int × α)) (k k' : Int) (f : α → α)
    (h : (l.lookup k').isSome) : ((alModify l k f).lookup k').isSome := by
  rw [lookup_alModify]
  by_cases hk : k' = k
  · rw [if_pos hk]
    rcases hl : l.lookup k' with _ | w
    · rw [hl] at h
      simp at h
    · rfl
  · rw [if_neg hk]
    exact h

theorem foldl_replay_lookup_isSome (eid k : Int) :
    ∀ (ps : List (Int × Input)) (c : Client), ((c.entities.lookup k).isSome) →
      (((ps.foldl (fun c p =>
          { c with entities := alModify c.entities eid (fun e => e.integrate_input p.2) })
        c).entities).lookup k).isSome := by
  intro ps
  induction ps with
  | nil => intro c h; exact h
  | cons p ps ih =>
    intro c h
    simp only [List.foldl_cons]
    exact ih _ (lookup_isSome_alModify _ _ _ _ h)

theorem applyState_lookup_isSome (tick : Int) (c : Client) (st : State) (k : Int)
    (h : (c.entities.lookup k).isSome) :
    (((Client.applyState tick c st).entities).lookup k).isSome := by
  simp only [Client.applyState]
  split_ifs <;>
    first
      | exact foldl_replay_lookup_isSome st.entity_id k _ _
          (lookup_isSome_alModify _ _ _ _ (lookup_isSome_alInsert _ _ _ _ h))
      | exact foldl_replay_lookup_isSome st.entity_id k _ _
          (lookup_isSome_alModify _ _ _ _ h)
      | exact lookup_isSome_alModify _ _ _ _ (lookup_isSome_alInsert _ _ _ _ h)
      | exact lookup_isSome_alInsert _ _ _ _ h
      | exact lookup_isSome_alModify _ _ _ _ h
      | exact h

theorem npcFold_world (disp : ℚ × ℚ) (ids : List Int) :
    ∀ s : Server,
      ((ids.foldl (fun s npc_id =>
        let ents := alModify s.world.entities npc_id (fun e =>
          { e with position := (e.position.1 + disp.1, e.position.2 + disp.2) })
        { s with world := { s.world with entities := ents } }) s).world.entities.map
          Prod.fst = s.world.entities.map Prod.fst) ∧
      ((ids.foldl (fun s npc_id =>
        let ents := alModify s.world.entities npc_id (fun e =>
          { e with position := (e.position.1 + disp.1, e.position.2 + disp.2) })
        { s with world := { s.world with entities := ents } }) s).world.latest_entity_id =
          s.world.latest_entity_id) := by
  induction ids with
  | nil => intro s; exact ⟨rfl, rfl⟩
  | cons i ids ih =>
    intro s
    simp only [List.foldl_cons]
    constructor
    · rw [(ih _).1]
      exact alModify_map_fst _ _ _
    · rw [(ih _).2]

/-- C10: `add_entity` returns `latest_entity_id + 1` (so successive calls
return 1, 2, 3, … — each id fresh), stores the new entity there while leaving
the binding of every existing id unchanged; the world mutations of the server
(NPC update, client-input integration) and the client's state application
never remove an entity; and connecting the same client twice allocates a new
entity and remaps the client to it while the earlier entity persists. -/
theorem C10_entity_persistence :
    (∀ (w : World) (e : Entity),
      (w.add_entity e).1 = w.latest_entity_id + 1 ∧
      (w.add_entity e).2.latest_entity_id = w.latest_entity_id + 1 ∧
      (w.add_entity e).2.entities.lookup (w.latest_entity_id + 1) = some e) ∧
    (∀ (w : World) (e : Entity) (k : Int), k ≤ w.latest_entity_id →
      (w.add_entity e).2.entities.lookup k = w.entities.lookup k) ∧
    (∀ (s : Server) (disp : ℚ × ℚ),
      (Server.update_npc_entities s disp).world.entities.map Prod.fst =
        s.world.entities.map Prod.fst ∧
      (Server.update_npc_entities s disp).world.latest_entity_id =
        s.world.latest_entity_id) ∧
    (∀ (s : Server) (cid : Int) (m : Message),
      (Server.applyClientMessage s cid m).world.entities.map Prod.fst =
        s.world.entities.map Prod.fst ∧
      (Server.applyClientMessage s cid m).world.latest_entity_id =
        s.world.latest_entity_id) ∧
    (∀ (tick : Int) (c : Client) (st : State) (k : Int),
      (c.entities.lookup k).isSome →
      (((Client.applyState tick c st).entities).lookup k).isSome) ∧
    (∀ (s : Server) (cid : Int) (col : Colour),
      (Server.connect (Server.connect s cid col).2 cid col).1 ≠
        (Server.connect s cid col).1 ∧
      (Server.connect (Server.connect s cid col).2 cid col).2.world.entities.lookup
          (Server.connect s cid col).1 =
        some { position := (0, 0), speed := 5, colour := col } ∧
      (Server.connect (Server.connect s cid col).2 cid col).2.world.entities.lookup
          (Server.connect (Server.connect s cid col).2 cid col).1 =
        some { position := (0, 0), speed := 5, colour := col } ∧
      (Server.connect (Server.connect s cid col).2 cid col).2.networked_players.lookup
          cid =
        some (Server.connect (Server.connect s cid col).2 cid col).1) := by
  refine ⟨?_, ?_, ?_, ?_, applyState_lookup_isSome, ?_⟩
  · intro w e
    refine ⟨rfl, rfl, ?_⟩
    simp [World.add_entity, lookup_alInsert]
  · intro w e k hk
    simp only [World.add_entity]
    rw [lookup_alInsert]
    have : ¬ k = w.latest_entity_id + 1 := by omega
    simp [this]
  · intro s disp
    unfold Server.update_npc_entities
    exact npcFold_world disp s.npc_entities s
  · intro s cid m
    unfold Server.applyClientMessage
    rcases s.networked_players.lookup cid with _ | eid
    · exact ⟨rfl, rfl⟩
    · rcases m.input with _ | i
      · exact ⟨rfl, rfl⟩
      · exact ⟨alModify_map_fst _ _ _, rfl⟩
  · intro s cid col
    simp only [Server.connect, World.add_entity]
    refine ⟨by omega, ?_, ?_, ?_⟩
    · rw [lookup_alInsert]
      have hne : ¬ s.world.latest_entity_id + 1 = s.world.latest_entity_id + 1 + 1 := by omega
      rw [if_neg hne, lookup_alInsert, if_pos rfl]
    · rw [lookup_alInsert, if_pos rfl]
    · rw [lookup_alInsert, if_pos rfl]

/-- A world holding one entity under id 1. -/
def c10World : World :=
  { entities := [(1, { position := (0, 0), speed := 5, colour := Colour.Red })],
    latest_entity_id := 1 }

/-- Witness for C10: adding a fresh entity to the concrete world leaves the
binding of the existing id 1 unchanged. -/
theorem C10_entity_persistence_witness :
    (c10World.add_entity { position := (2, 2), speed := 5, colour := Colour.Green
      }).2.entities.lookup 1 = c10World.entities.lookup 1 :=
  C10_entity_persistence.2.1 c10World
    { position := (2, 2), speed := 5, colour := Colour.Green } 1 (by decide)

end GameNet
